import Mathlib

/-!
Shallow embedding of the anet-mcp-server request dispatch engine
(src/types.rs, src/tools.rs, src/server.rs, src/transport/nats.rs,
src/main.rs).  JSON values are modelled by an inductive `Json`; object
entries keep insertion order (the claims checked here never depend on
serde_json's key ordering).  serde_json numbers are modelled by `Int`
(the only number the core ever produces is the error code -32601).
-/

namespace AnetMcp

/-- Model of `serde_json::Value`. -/
inductive Json where
  | null
  | bool (b : Bool)
  | num (n : Int)
  | str (s : String)
  | arr (elems : List Json)
  | obj (entries : List (String × Json))

/-- `Value::get(key)` on an object: first binding wins (objects built by
this code never repeat a key). -/
def jlookup : List (String × Json) → String → Option Json
  | [], _ => none
  | (k, v) :: rest, key => if k = key then some v else jlookup rest key

/-- `params.get(key)`: `Value::get` returns `None` on non-objects. -/
def Json.get (j : Json) (key : String) : Option Json :=
  match j with
  | .obj entries => jlookup entries key
  | _ => none

/-- `Value::as_str`. -/
def Json.as_str : Json → Option String
  | .str s => some s
  | _ => none

/-- Number of entries of an object (`0` for non-objects); used to tell
two concrete `Json` values apart. -/
def Json.objSize : Json → Nat
  | .obj entries => entries.length
  | _ => 0

/-- `types.rs` `JsonRpcRequest` (serde: `id` and `params` optional). -/
structure JsonRpcRequest where
  jsonrpc : String
  id : Option String
  method : String
  params : Option Json

/-- `types.rs` `JsonRpcError`.  `data` carries
`#[serde(skip_serializing_if = "Option::is_none")]`. -/
structure JsonRpcError where
  code : Int
  message : String
  data : Option Json

/-- `types.rs` `JsonRpcResponse`.  Note: `id`, `result` and `error` have
no `skip_serializing_if` attribute, so serialization emits `null` for an
absent one. -/
structure JsonRpcResponse where
  jsonrpc : String
  id : Option String
  result : Option Json
  error : Option JsonRpcError

/-- `types.rs` `ServerCapabilities`; the last two fields are
skip-if-none on serialization. -/
structure ServerCapabilities where
  tools : Option Json
  prompts : Option Json
  resources : Option Json
  notification_options : Option Json
  experimental_capabilities : Option Json

/-- `types.rs` `ToolDefinition` (input_schema serializes as
"inputSchema"). -/
structure ToolDefinition where
  name : String
  description : String
  input_schema : Json

/-- `types.rs` `Content`: tagged enum, only variant `Text`. -/
inductive Content where
  | text (t : String)

/-- A registered tool (`tools.rs` trait `Tool`): name, description,
input schema and the `call` behaviour.  A failing call is an
`anyhow::Error`, modelled by its message string. -/
structure ToolImpl where
  name : String
  description : String
  input_schema : Json
  call : Option Json → Except String (List Content)

/-- `tools.rs` `Tools`: the `HashMap<String, Box<dyn Tool>>` is modelled
as an association list; `HashMap::insert` replaces the value stored at
an existing key in place. -/
structure Tools where
  tools : List (String × ToolImpl)

/-- Association-list counterpart of `HashMap::insert`. -/
def insertAL : List (String × ToolImpl) → String → ToolImpl → List (String × ToolImpl)
  | [], k, v => [(k, v)]
  | (k', v') :: rest, k, v =>
    if k' = k then (k, v) :: rest else (k', v') :: insertAL rest k v

/-- Association-list counterpart of `HashMap::get`. -/
def lookupAL : List (String × ToolImpl) → String → Option ToolImpl
  | [], _ => none
  | (k', v') :: rest, k => if k' = k then some v' else lookupAL rest k

/-- `Tools::new`. -/
def Tools.new : Tools := ⟨[]⟩

/-- `Tools::add`: `self.tools.insert(tool.name(), Box::new(tool))`. -/
def Tools.add (ts : Tools) (tool : ToolImpl) : Tools :=
  ⟨insertAL ts.tools tool.name tool⟩

/-- `Tools::list`: map every stored tool to its definition triple. -/
def Tools.list (ts : Tools) : List ToolDefinition :=
  ts.tools.map (fun p => ⟨p.2.name, p.2.description, p.2.input_schema⟩)

/-- `Tools::call`: lookup by exact name, `Tool {name} not found` when
absent, otherwise forward the arguments to the tool. -/
def Tools.call (ts : Tools) (name : String) (args : Option Json) :
    Except String (List Content) :=
  match lookupAL ts.tools name with
  | none => .error ("Tool " ++ name ++ " not found")
  | some tool => tool.call args

/-- Invariant every registry reachable from `Tools::new` by `Tools::add`
satisfies (automatic for the Rust `HashMap`): stored keys are pairwise
distinct and each key is its tool's name. -/
def Tools.Wf (ts : Tools) : Prop :=
  (ts.tools.map Prod.fst).Nodup ∧ ∀ p ∈ ts.tools, p.1 = p.2.name

/-- `server.rs` `Server` (transport and tokio runtime omitted: the
dispatcher never reads them). -/
structure Server where
  tools : Tools
  server_name : String
  server_version : String
  capabilities : ServerCapabilities

/-- serde serialization of `Content` (`#[serde(tag = "type")]`, variant
renamed "text"). -/
def encodeContent : Content → Json
  | .text t => .obj [("type", .str "text"), ("text", .str t)]

/-- serde serialization of `ToolDefinition` (`input_schema` renamed
"inputSchema"). -/
def encodeToolDefinition (d : ToolDefinition) : Json :=
  .obj [("name", .str d.name), ("description", .str d.description),
        ("inputSchema", d.input_schema)]

/-- serde serialization of `ServerCapabilities`: the first three
`Option<Value>` fields serialize `None` as `null`; the last two carry
`skip_serializing_if = "Option::is_none"`. -/
def encodeCapabilities (c : ServerCapabilities) : Json :=
  .obj ([("tools", c.tools.getD .null),
         ("prompts", c.prompts.getD .null),
         ("resources", c.resources.getD .null)]
    ++ (match c.notification_options with
        | none => [] | some v => [("notification_options", v)])
    ++ (match c.experimental_capabilities with
        | none => [] | some v => [("experimental_capabilities", v)]))

/-- serde serialization of `JsonRpcError`: `data` is skipped when
absent. -/
def encodeError (e : JsonRpcError) : Json :=
  .obj ([("code", .num e.code), ("message", .str e.message)]
    ++ (match e.data with | none => [] | some v => [("data", v)]))

/-- serde serialization of `JsonRpcResponse`: fields in declaration
order; `id`, `result` and `error` have no skip attribute, so an absent
one is emitted as an explicit `null`. -/
def encodeResponse (r : JsonRpcResponse) : Json :=
  .obj [("jsonrpc", .str r.jsonrpc),
        ("id", match r.id with | none => .null | some s => .str s),
        ("result", r.result.getD .null),
        ("error", match r.error with | none => .null | some e => encodeError e)]

/-- Model of the `Debug` rendering of a `serde_json::Value`, used only in
the `getPrompt` placeholder text (`format!("\x7b:?\x7d", arguments)`). -/
def debugFmt : Json → String
  | .null => "Null"
  | .bool b => "Bool(" ++ (if b then "true" else "false") ++ ")"
  | .num n => "Number(" ++ toString n ++ ")"
  | .str s => "String(\"" ++ s ++ "\")"
  | .arr elems =>
      "Array [" ++ String.intercalate ", "
        (elems.attach.map (fun x => debugFmt x.1)) ++ "]"
  | .obj entries =>
      "Object \x7b" ++ String.intercalate ", "
        (entries.attach.map (fun x => "\"" ++ x.1.1 ++ "\": " ++ debugFmt x.1.2)) ++ "\x7d"
termination_by j => sizeOf j
decreasing_by
  all_goals rcases x with ⟨p, hm⟩
  all_goals have h := List.sizeOf_lt_of_mem hm
  · simp only [Json.arr.sizeOf_spec]
    omega
  · rcases p with ⟨k, v⟩
    simp only [Json.obj.sizeOf_spec, Prod.mk.sizeOf_spec] at h ⊢
    omega

/-- `Server::handle_initialize`: reads `clientInfo` only for logging and
always succeeds with name, version and capabilities. -/
def Server.handle_initialize (s : Server) (_params : Json) : Except String Json :=
  .ok (.obj [("server_name", .str s.server_name),
             ("server_version", .str s.server_version),
             ("capabilities", encodeCapabilities s.capabilities)])

/-- `Server::handle_list_tools`. -/
def Server.handle_list_tools (s : Server) (_params : Json) : Except String Json :=
  .ok (.obj [("tools", .arr ((s.tools.list).map encodeToolDefinition))])

/-- `Server::handle_call_tool`: requires a string `name`, forwards the
optional `arguments` to `Tools::call`, wraps the returned content blocks
under a `content` key. -/
def Server.handle_call_tool (s : Server) (params : Json) : Except String Json :=
  match (params.get "name").bind Json.as_str with
  | none => .error "Missing 'name' in params"
  | some name =>
    let arguments := params.get "arguments"
    match s.tools.call name arguments with
    | .error e => .error e
    | .ok content => .ok (.obj [("content", .arr (content.map encodeContent))])

/-- `Server::handle_list_resources` (stub). -/
def Server.handle_list_resources (_s : Server) (_params : Json) : Except String Json :=
  .ok (.obj [("resources", .arr []), ("next_cursor", .null), ("meta", .null)])

/-- `Server::handle_read_resource`: requires a string `uri`. -/
def Server.handle_read_resource (_s : Server) (params : Json) : Except String Json :=
  match (params.get "uri").bind Json.as_str with
  | none => .error "Missing 'uri' in params"
  | some uri => .ok (.str ("Resource content for " ++ uri))

/-- `Server::handle_list_prompts` (stub). -/
def Server.handle_list_prompts (_s : Server) (_params : Json) : Except String Json :=
  .ok (.obj [("prompts", .arr [])])

/-- `Server::handle_get_prompt`: requires a string `name` and a present
`arguments` value. -/
def Server.handle_get_prompt (_s : Server) (params : Json) : Except String Json :=
  match (params.get "name").bind Json.as_str with
  | none => .error "Missing 'name' in params"
  | some name =>
    match params.get "arguments" with
    | none => .error "Missing 'arguments' in params"
    | some arguments =>
      .ok (.obj [("description", .str ("Prompt '" ++ name ++ "'")),
                 ("messages", .arr [.obj
                   [("role", .str "user"),
                    ("content", .obj
                      [("type", .str "text"),
                       ("text", .str ("Prompt with args: " ++ debugFmt arguments))])]])])

/-- The seven method strings `Server::handle_request` routes. -/
def recognizedMethods : List String :=
  ["initialize", "listTools", "callTool", "listResources",
   "readResource", "listPrompts", "getPrompt"]

/-- The `result` value `Server::handle_request` computes (the
`match method` block, src/server.rs lines 29-38): exact, case-sensitive
routing to the seven handlers, anything else a method-not-found
failure. -/
def Server.dispatch (s : Server) (method : String) (params : Json) :
    Except String Json :=
  match method with
  | "initialize" => s.handle_initialize params
  | "listTools" => s.handle_list_tools params
  | "callTool" => s.handle_call_tool params
  | "listResources" => s.handle_list_resources params
  | "readResource" => s.handle_read_resource params
  | "listPrompts" => s.handle_list_prompts params
  | "getPrompt" => s.handle_get_prompt params
  | m => .error ("Method not found: " ++ m)

/-- `Server::handle_request`: defaults absent params to `\x7b\x7d`, routes by
exact method string, and packages the handler outcome; every failure
becomes an error response with the single code `-32601` (the source
comments it "Method not found or generic error"). -/
def Server.handle_request (s : Server) (req : JsonRpcRequest) : JsonRpcResponse :=
  let id := req.id
  let params := req.params.getD (.obj [])
  match s.dispatch req.method params with
  | .ok value => ⟨"2.0", id, some value, none⟩
  | .error e => ⟨"2.0", id, none, some ⟨-32601, e, none⟩⟩

/-- Raw inbound bytes: either text that parses as a JSON document or
not. -/
inductive Payload where
  | wellFormed (j : Json)
  | malformed

/-- serde deserialization of an `Option<String>` field: absent and
`null` both give `None`. -/
def decodeOptString : Option Json → Except String (Option String)
  | none => .ok none
  | some .null => .ok none
  | some (.str s) => .ok (some s)
  | some _ => .error "invalid type: expected a string"

/-- serde `derive(Deserialize)` for `JsonRpcRequest`: an object with a
required string `jsonrpc`, an optional string `id`, a required string
`method` and an optional `params` value (`null` counting as absent).
Error messages stand in for serde's; the code only logs them or replaces
them with an `anyhow` context string. -/
def decodeRequest : Payload → Except String JsonRpcRequest
  | .malformed => .error "expected value"
  | .wellFormed j =>
    match j with
    | .obj entries =>
      match jlookup entries "jsonrpc" with
      | some (.str ver) =>
        match decodeOptString (jlookup entries "id") with
        | .error e => .error e
        | .ok id =>
          match jlookup entries "method" with
          | some (.str m) =>
            let params := match jlookup entries "params" with
              | none => none
              | some .null => none
              | some v => some v
            .ok ⟨ver, id, m, params⟩
          | _ => .error "missing or invalid field method"
      | _ => .error "missing or invalid field jsonrpc"
    | _ => .error "expected object"

/-- Modelled from the spec: the repository serializes `JsonRpcResponse`
but defines no deserializer for it (`types.rs` derives only
`Serialize`; the example client decodes responses as untyped values).
This decoder follows the §6 wire shape
`Response: jsonrpc string, id string or omitted, result any or omitted,
error object or omitted`, with the serde convention that an explicit
`null` counts as omitted. -/
def decodeErrorObj (j : Json) : Except String JsonRpcError :=
  match j with
  | .obj entries =>
    match jlookup entries "code" with
    | some (.num code) =>
      match jlookup entries "message" with
      | some (.str message) =>
        let data := match jlookup entries "data" with
          | none => none
          | some .null => none
          | some v => some v
        .ok ⟨code, message, data⟩
      | _ => .error "missing or invalid field message"
    | _ => .error "missing or invalid field code"
  | _ => .error "expected object"

/-- Modelled from the spec: decoder for the §6 `Response` wire shape
(see `decodeErrorObj`); the repository itself never decodes a
Response. -/
def decodeResponse (j : Json) : Except String JsonRpcResponse :=
  match j with
  | .obj entries =>
    match jlookup entries "jsonrpc" with
    | some (.str ver) =>
      match decodeOptString (jlookup entries "id") with
      | .error e => .error e
      | .ok id =>
        let result := match jlookup entries "result" with
          | none => none
          | some .null => none
          | some v => some v
        match jlookup entries "error" with
        | none => .ok ⟨ver, id, result, none⟩
        | some .null => .ok ⟨ver, id, result, none⟩
        | some v =>
          match decodeErrorObj v with
          | .error e => .error e
          | .ok err => .ok ⟨ver, id, result, some err⟩
    | _ => .error "missing or invalid field jsonrpc"
  | _ => .error "expected object"

/-- One inbound NATS message: payload bytes plus the optional reply
subject. -/
structure NatsMessage where
  payload : Payload
  reply : Option String

/-- Body of one iteration of `NatsTransport::run`'s subscription loop:
returns the (destination, encoded response) publishes it performs.  A
payload that fails to decode is logged and produces none; a decoded
request is dispatched, and the response is published only when a reply
subject is present. -/
def natsProcessMessage (s : Server) (msg : NatsMessage) : List (String × Json) :=
  match decodeRequest msg.payload with
  | .ok request =>
    let response := s.handle_request request
    let serialized := encodeResponse response
    match msg.reply with
    | some reply => [(reply, serialized)]
    | none => []
  | .error _ => []

/-- `NatsTransport::run` over a finite message stream: the loop
processes messages one at a time in arrival order. -/
def natsRun (s : Server) : List NatsMessage → List (String × Json)
  | [] => []
  | m :: rest => natsProcessMessage s m ++ natsRun s rest

/-- Does `pat` match at the head of `s`? -/
def matchesAt : List Char → List Char → Bool
  | [], _ => true
  | _ :: _, [] => false
  | p :: ps, c :: cs => p == c && matchesAt ps cs

/-- Does `pat` occur anywhere in `s`? -/
def hasSub (pat : List Char) : List Char → Bool
  | [] => matchesAt pat []
  | c :: cs => matchesAt pat (c :: cs) || hasSub pat cs

/-- `str::contains(pat)` on the characters of the two strings. -/
def containsSub (s pat : String) : Bool :=
  hasSub pat.data s.data

/-- `main.rs` `Server::run` over `StdioTransport`, the input stream
modelled as the list of its remaining lines (each line a `Payload`; the
end of the list is end-of-input, where `receive` reads an empty line and
fails with "EOF received").  A received request is dispatched and its
response sent; a receive error whose message contains "EOF" breaks the
loop into an orderly `Ok` shutdown; any other receive error (in
particular a line that fails to decode, whose `anyhow` context displays
as "Failed to parse JSON-RPC request") aborts the run with the context
"Failed to receive request". -/
def stdioRun (s : Server) : List Payload → Except String (List JsonRpcResponse)
  | [] =>
    let msg := "EOF received"
    if containsSub msg "EOF" then .ok [] else .error "Failed to receive request"
  | p :: rest =>
    match decodeRequest p with
    | .ok request =>
      let response := s.handle_request request
      match stdioRun s rest with
      | .ok responses => .ok (response :: responses)
      | .error e => .error e
    | .error _ =>
      let msg := "Failed to parse JSON-RPC request"
      if containsSub msg "EOF" then .ok [] else .error "Failed to receive request"

/-! Concrete fixtures used by counterexamples and witnesses. -/

/-- The capability bag `ServerBuilder::new` installs by default: tools
only. -/
def defaultCapabilities : ServerCapabilities :=
  ⟨some (.obj []), none, none, none, none⟩

/-- A built server over an empty registry, with the builder's default
name and version. -/
def emptyServer : Server :=
  ⟨Tools.new, "mcp-server", "0.1.0", defaultCapabilities⟩

/-- A registered tool whose `call` always fails. -/
def boomTool : ToolImpl :=
  ⟨"boom", "always fails", .obj [], fun _ => .error "boom failed"⟩

/-- A server whose registry holds exactly `boomTool`. -/
def boomServer : Server :=
  ⟨Tools.new.add boomTool, "mcp-server", "0.1.0", defaultCapabilities⟩

/-- An echoing tool that returns one fixed text block. -/
def echoTool : ToolImpl :=
  ⟨"echo", "echoes", .obj [], fun _ => .ok [.text "x"]⟩

/-- Scenario 1 request: `listTools` with id "1" and empty params. -/
def scenario1Request : JsonRpcRequest :=
  ⟨"2.0", some "1", "listTools", some (.obj [])⟩

/-- A second registration of the `echo` name carrying new metadata. -/
def echoToolV2 : ToolImpl :=
  ⟨"echo", "echoes, improved", .str "schema2", fun _ => .ok []⟩

/-- Is this optional JSON payload not the explicit JSON null?  An option
holding an explicit null serializes exactly like an absent one, so only
payloads satisfying this can round-trip. -/
def notNullOpt : Option Json → Bool
  | some .null => false
  | _ => true

/-- Responses none of whose optional payloads is the JSON null; every
response the dispatcher produces has this shape. -/
def JsonRpcResponse.normal (r : JsonRpcResponse) : Bool :=
  notNullOpt r.result &&
    (match r.error with
     | none => true
     | some e => notNullOpt e.data)

/-- The scenario-1 encoding the spec claims:
`jsonrpc "2.0", id "1", result with an empty tools list, and no error
key at all`. -/
def scenario1Claimed : Json :=
  .obj [("jsonrpc", .str "2.0"), ("id", .str "1"),
        ("result", .obj [("tools", .arr [])])]

/-! Theorems for the claims. -/

/-! Association-list facts about the registry model, mirroring
`HashMap::insert` behaviour. -/

theorem mem_insertAL_self (l : List (String × ToolImpl)) (k : String)
    (v : ToolImpl) : (k, v) ∈ insertAL l k v := by
  induction l with
  | nil => simp [insertAL]
  | cons hd tl ih =>
    obtain ⟨k0, v0⟩ := hd
    by_cases h : k0 = k <;> simp [insertAL, h, ih]

theorem mem_insertAL_of_ne (l : List (String × ToolImpl)) (k k' : String)
    (v v' : ToolImpl) (hmem : (k', v') ∈ l) (hne : k' ≠ k) :
    (k', v') ∈ insertAL l k v := by
  induction l with
  | nil => simp at hmem
  | cons hd tl ih =>
    obtain ⟨k0, v0⟩ := hd
    by_cases h : k0 = k
    · rcases List.mem_cons.mp hmem with heq | htl
      · exact absurd (h ▸ congrArg Prod.fst heq) hne
      · simp only [insertAL, if_pos h]
        exact List.mem_cons_of_mem _ htl
    · simp only [insertAL, if_neg h]
      rcases List.mem_cons.mp hmem with heq | htl
      · exact heq ▸ List.mem_cons_self _ _
      · exact List.mem_cons_of_mem _ (ih htl)

theorem mem_of_mem_insertAL (l : List (String × ToolImpl)) (k : String)
    (v : ToolImpl) (p : String × ToolImpl) (hp : p ∈ insertAL l k v) :
    p = (k, v) ∨ p ∈ l := by
  induction l with
  | nil => simpa [insertAL] using hp
  | cons hd tl ih =>
    obtain ⟨k0, v0⟩ := hd
    by_cases h : k0 = k
    · simp only [insertAL, if_pos h] at hp
      rcases List.mem_cons.mp hp with heq | htl
      · exact .inl heq
      · exact .inr (List.mem_cons_of_mem _ htl)
    · simp only [insertAL, if_neg h] at hp
      rcases List.mem_cons.mp hp with heq | htl
      · exact .inr (heq ▸ List.mem_cons_self _ _)
      · rcases ih htl with h1 | h2
        · exact .inl h1
        · exact .inr (List.mem_cons_of_mem _ h2)

theorem mem_keys_insertAL (l : List (String × ToolImpl)) (k k' : String)
    (v : ToolImpl) (h : k' ∈ (insertAL l k v).map Prod.fst) :
    k' ∈ l.map Prod.fst ∨ k' = k := by
  rcases List.mem_map.mp h with ⟨p, hp, hfst⟩
  rcases mem_of_mem_insertAL l k v p hp with h1 | h2
  · exact .inr (by rw [← hfst, h1])
  · exact .inl (List.mem_map.mpr ⟨p, h2, hfst⟩)

theorem keys_nodup_insertAL (l : List (String × ToolImpl)) (k : String)
    (v : ToolImpl) (h : (l.map Prod.fst).Nodup) :
    ((insertAL l k v).map Prod.fst).Nodup := by
  induction l with
  | nil => simp [insertAL]
  | cons hd tl ih =>
    obtain ⟨k0, v0⟩ := hd
    rw [List.map_cons, List.nodup_cons] at h
    by_cases hk : k0 = k
    · subst hk
      simpa [insertAL] using h
    · simp only [insertAL, if_neg hk, List.map_cons, List.nodup_cons]
      refine ⟨fun hmem => ?_, ih h.2⟩
      rcases mem_keys_insertAL tl k k0 v hmem with h1 | h2
      · exact h.1 h1
      · exact hk h2

theorem names_ok_insertAL (l : List (String × ToolImpl)) (v : ToolImpl)
    (h : ∀ p ∈ l, p.1 = p.2.name) :
    ∀ p ∈ insertAL l v.name v, p.1 = p.2.name := by
  intro p hp
  rcases mem_of_mem_insertAL l v.name v p hp with h1 | h2
  · rw [h1]
  · exact h p h2

theorem Tools.Wf_add (ts : Tools) (t : ToolImpl) (h : ts.Wf) :
    (ts.add t).Wf :=
  ⟨keys_nodup_insertAL _ _ _ h.1, names_ok_insertAL _ _ h.2⟩

theorem filter_name_nil (l : List (String × ToolImpl)) (k : String)
    (h : ∀ p ∈ l, p.1 ≠ k) (hnames : ∀ p ∈ l, p.1 = p.2.name) :
    (l.map (fun p =>
      (⟨p.2.name, p.2.description, p.2.input_schema⟩ : ToolDefinition))).filter
      (fun d => d.name == k) = [] := by
  induction l with
  | nil => rfl
  | cons hd tl ih =>
    have hne : hd.2.name ≠ k := by
      have h1 := hnames hd (List.mem_cons_self _ _)
      rw [← h1]
      exact h hd (List.mem_cons_self _ _)
    simp only [List.map_cons, List.filter_cons]
    rw [if_neg (by simpa using hne)]
    exact ih (fun p hp => h p (List.mem_cons_of_mem _ hp))
      (fun p hp => hnames p (List.mem_cons_of_mem _ hp))

theorem filter_insertAL (l : List (String × ToolImpl)) (k : String)
    (v : ToolImpl) (hkeys : (l.map Prod.fst).Nodup)
    (hnames : ∀ p ∈ l, p.1 = p.2.name) (hv : v.name = k) :
    ((insertAL l k v).map (fun p =>
      (⟨p.2.name, p.2.description, p.2.input_schema⟩ : ToolDefinition))).filter
      (fun d => d.name == k) = [⟨v.name, v.description, v.input_schema⟩] := by
  induction l with
  | nil =>
    simp only [insertAL, List.map_cons, List.map_nil, List.filter_cons]
    rw [if_pos (by simpa using hv)]
    rfl
  | cons hd tl ih =>
    obtain ⟨k0, v0⟩ := hd
    rw [List.map_cons, List.nodup_cons] at hkeys
    by_cases hk : k0 = k
    · subst hk
      rw [show insertAL ((k0, v0) :: tl) k0 v = (k0, v) :: tl from by
        simp [insertAL]]
      simp only [List.map_cons, List.filter_cons]
      rw [if_pos (by simpa using hv)]
      rw [filter_name_nil tl k0
        (fun p hp => fun hcon => hkeys.1 (hcon ▸ List.mem_map.mpr ⟨p, hp, rfl⟩))
        (fun p hp => hnames p (List.mem_cons_of_mem _ hp))]
    · have hne : v0.name ≠ k := by
        have h1 := hnames (k0, v0) (List.mem_cons_self _ _)
        simp only at h1
        rw [← h1]
        exact hk
      simp only [insertAL, if_neg hk, List.map_cons, List.filter_cons]
      rw [if_neg (by simpa using hne)]
      exact ih hkeys.2 (fun p hp => hnames p (List.mem_cons_of_mem _ hp))

/-- C5: registering tools A then B with distinct names leaves both in
`list()`; registering a tool whose name equals an already-registered
name replaces the earlier entry (last-write-wins), so afterwards
`list()` has exactly one entry with that name, carrying the later tool's
description and schema.  `Wf` is the key-uniqueness invariant the Rust
`HashMap` maintains by construction. -/
theorem registry_last_write_wins (ts : Tools) (A B A' : ToolImpl)
    (hwf : ts.Wf) (hAB : A.name ≠ B.name) (hA' : A'.name = A.name) :
    (⟨A.name, A.description, A.input_schema⟩ : ToolDefinition) ∈
        ((ts.add A).add B).list ∧
    (⟨B.name, B.description, B.input_schema⟩ : ToolDefinition) ∈
        ((ts.add A).add B).list ∧
    ((ts.add A).add A').list.filter (fun d => d.name == A.name) =
      [⟨A'.name, A'.description, A'.input_schema⟩] := by
  obtain ⟨an, ad, asch, acall⟩ := A'
  simp only at hA'
  subst hA'
  refine ⟨?_, ?_, ?_⟩
  · have h1 : (A.name, A) ∈ insertAL ts.tools A.name A :=
      mem_insertAL_self _ _ _
    have h2 : (A.name, A) ∈ insertAL (insertAL ts.tools A.name A) B.name B :=
      mem_insertAL_of_ne _ _ _ _ _ h1 hAB
    exact List.mem_map.mpr ⟨(A.name, A), h2, rfl⟩
  · exact List.mem_map.mpr ⟨(B.name, B), mem_insertAL_self _ _ _, rfl⟩
  · have hwf1 := ts.Wf_add A hwf
    exact filter_insertAL (insertAL ts.tools A.name A) A.name
      ⟨A.name, ad, asch, acall⟩ hwf1.1 hwf1.2 rfl

/-- Witness for C5: echo and boom registered into a fresh registry, then
echo re-registered with new metadata. -/
theorem registry_last_write_wins_witness :
    (⟨"echo", "echoes", .obj []⟩ : ToolDefinition) ∈
        ((Tools.new.add echoTool).add boomTool).list ∧
    (⟨"boom", "always fails", .obj []⟩ : ToolDefinition) ∈
        ((Tools.new.add echoTool).add boomTool).list ∧
    ((Tools.new.add echoTool).add echoToolV2).list.filter
        (fun d => d.name == "echo") =
      [⟨"echo", "echoes, improved", .str "schema2"⟩] :=
  registry_last_write_wins Tools.new echoTool boomTool echoToolV2
    ⟨List.nodup_nil, by simp [Tools.new]⟩ (by decide) rfl

/-- C6: in the NATS loop, a message whose payload decodes as a Request
publishes the encoded Response exactly when the message carried a reply
subject, and then to exactly that subject; without a reply subject the
response is computed but never published. -/
theorem nats_publish_iff_reply (s : Server) (msg : NatsMessage)
    (req : JsonRpcRequest) (hdec : decodeRequest msg.payload = .ok req) :
    (∀ r, msg.reply = some r →
      natsProcessMessage s msg = [(r, encodeResponse (s.handle_request req))]) ∧
    (msg.reply = none → natsProcessMessage s msg = []) := by
  constructor
  · intro r hr
    simp [natsProcessMessage, hdec, hr]
  · intro hr
    simp [natsProcessMessage, hdec, hr]

/-- Witness for C6: a decodable `listTools` message with and without a
reply subject. -/
theorem nats_publish_iff_reply_witness :
    natsProcessMessage emptyServer
      ⟨.wellFormed (.obj [("jsonrpc", .str "2.0"), ("id", .str "1"),
                          ("method", .str "listTools")]), some "inbox.1"⟩ =
      [("inbox.1", encodeResponse (emptyServer.handle_request
          ⟨"2.0", some "1", "listTools", none⟩))] ∧
    natsProcessMessage emptyServer
      ⟨.wellFormed (.obj [("jsonrpc", .str "2.0"), ("id", .str "1"),
                          ("method", .str "listTools")]), none⟩ = [] :=
  ⟨(nats_publish_iff_reply emptyServer
      ⟨.wellFormed (.obj [("jsonrpc", .str "2.0"), ("id", .str "1"),
                          ("method", .str "listTools")]), some "inbox.1"⟩
      ⟨"2.0", some "1", "listTools", none⟩ rfl).1 "inbox.1" rfl,
   (nats_publish_iff_reply emptyServer
      ⟨.wellFormed (.obj [("jsonrpc", .str "2.0"), ("id", .str "1"),
                          ("method", .str "listTools")]), none⟩
      ⟨"2.0", some "1", "listTools", none⟩ rfl).2 rfl⟩

/-- A stream whose every line decodes is fully served: the stdio run
returns `Ok` no matter what the dispatcher answers. -/
theorem stdioRun_ok_of_decodable (s : Server) (input : List Payload)
    (h : ∀ q ∈ input, ∃ r, decodeRequest q = .ok r) :
    ∃ resps, stdioRun s input = .ok resps := by
  induction input with
  | nil => exact ⟨[], rfl⟩
  | cons p rest ih =>
    obtain ⟨req, hreq⟩ := h p (List.mem_cons_self _ _)
    obtain ⟨resps, hresps⟩ := ih (fun q hq => h q (List.mem_cons_of_mem _ hq))
    exact ⟨s.handle_request req :: resps, by simp [stdioRun, hreq, hresps]⟩

/-- C7: decode-failure propagation differs by transport and never
reaches the dispatcher: a line that fails to decode makes the whole
stdio run fail; a NATS payload that fails to decode is skipped and the
subscription loop continues with the remaining messages; and
dispatch-level failures never abort the stdio loop (a fully decodable
stream always runs to `Ok`, whatever responses the dispatcher
produces). -/
theorem decode_failure_propagation (s : Server) (p : Payload)
    (rest : List Payload) (msg : NatsMessage) (msgs : List NatsMessage)
    (e₁ e₂ : String) (hp : decodeRequest p = .error e₁)
    (hm : decodeRequest msg.payload = .error e₂) :
    stdioRun s (p :: rest) = .error "Failed to receive request" ∧
    natsRun s (msg :: msgs) = natsRun s msgs ∧
    (∀ input : List Payload, (∀ q ∈ input, ∃ r, decodeRequest q = .ok r) →
      ∃ resps, stdioRun s input = .ok resps) := by
  refine ⟨?_, ?_, fun input h => stdioRun_ok_of_decodable s input h⟩
  · simp [stdioRun, hp, containsSub, matchesAt, hasSub]
  · simp [natsRun, natsProcessMessage, hm]

/-- Witness for C7: a malformed line aborts the stdio run; a malformed
NATS payload is skipped; the empty (trivially decodable) stream runs to
`Ok`. -/
theorem decode_failure_propagation_witness :
    stdioRun emptyServer [.malformed] = .error "Failed to receive request" ∧
    natsRun emptyServer [⟨.malformed, some "inbox.1"⟩] = natsRun emptyServer [] ∧
    (∃ resps, stdioRun emptyServer [] = .ok resps) :=
  let h := decode_failure_propagation emptyServer .malformed []
    ⟨.malformed, some "inbox.1"⟩ [] "expected value" "expected value" rfl rfl
  ⟨h.1, h.2.1, h.2.2 [] (by intro q hq; simp at hq)⟩

/-- C8: end-of-input on the stdio transport is a normal termination
signal, not an error: an exhausted input stream makes `run()` break out
of the receive loop and return success, and more generally a stream
whose lines all decode is fully served and ends in `Ok` with no error
surfaced. -/
theorem stdio_eof_normal_termination (s : Server) (input : List Payload)
    (h : ∀ q ∈ input, ∃ r, decodeRequest q = .ok r) :
    stdioRun s [] = .ok [] ∧ ∃ resps, stdioRun s input = .ok resps :=
  ⟨rfl, stdioRun_ok_of_decodable s input h⟩

/-- Witness for C8 on a one-line decodable stream. -/
theorem stdio_eof_normal_termination_witness :
    stdioRun emptyServer [] = .ok [] ∧
    ∃ resps, stdioRun emptyServer
      [.wellFormed (.obj [("jsonrpc", .str "2.0"), ("id", .str "1"),
                          ("method", .str "listTools")])] = .ok resps :=
  stdio_eof_normal_termination emptyServer
    [.wellFormed (.obj [("jsonrpc", .str "2.0"), ("id", .str "1"),
                        ("method", .str "listTools")])]
    (by
      intro q hq
      simp only [List.mem_singleton] at hq
      exact ⟨⟨"2.0", some "1", "listTools", none⟩, by rw [hq]; rfl⟩)

/-- C2 counterexample: the scenario-1 response does not encode as the
claimed three-key document — the serializer has no skip-if-none marker
on `error` (nor on `result` or `id`), so the absent `error` is emitted
as an explicit null and the encoding has four keys. -/
theorem scenario1_encoding_not_as_claimed :
    encodeResponse (emptyServer.handle_request scenario1Request) ≠
      scenario1Claimed := by
  intro hcon
  have h4 : (encodeResponse (emptyServer.handle_request scenario1Request)).objSize = 4 := rfl
  rw [hcon] at h4
  have h3 : scenario1Claimed.objSize = 3 := rfl
  rw [h3] at h4
  exact absurd h4 (by decide)

/-- C2 amended: encoding a Response and decoding it back restores every
populated field (for responses whose optional payloads are not the bare
JSON null, the shape of everything the dispatcher emits), but the absent
one of result and error serializes as an explicit null rather than being
omitted; scenario 1 encodes with the extra `error: null` key. -/
theorem response_encoding_roundtrip :
    (∀ r : JsonRpcResponse, r.normal = true →
      decodeResponse (encodeResponse r) = .ok r) ∧
    encodeResponse (emptyServer.handle_request scenario1Request) =
      .obj [("jsonrpc", .str "2.0"), ("id", .str "1"),
            ("result", .obj [("tools", .arr [])]), ("error", .null)] := by
  constructor
  · intro r h
    obtain ⟨ver, id, result, error⟩ := r
    rcases id with _ | i <;> rcases result with _ | v <;>
      rcases error with _ | ⟨c, m, d⟩
    all_goals try rcases v with _ | b | n | t | es | kvs
    all_goals try rcases d with _ | dv
    all_goals try rcases dv with _ | b2 | n2 | t2 | es2 | kvs2
    all_goals first
      | rfl
      | simp_all [JsonRpcResponse.normal, notNullOpt]
  · rfl

/-- Witness for C2 amended at the scenario-1 response. -/
theorem response_encoding_roundtrip_witness :
    decodeResponse (encodeResponse
      ⟨"2.0", some "1", some (.obj [("tools", .arr [])]), none⟩) =
      .ok ⟨"2.0", some "1", some (.obj [("tools", .arr [])]), none⟩ :=
  response_encoding_roundtrip.1
    ⟨"2.0", some "1", some (.obj [("tools", .arr [])]), none⟩ rfl

/-- C1: for every decoded Request whose method is one of the seven
recognized method strings, `handle_request` returns exactly one Response
whose id equals the Request's id (absent if absent), with exactly one of
result and error set — never both, never neither — even when the handler
fails internally. -/
theorem handle_request_single_response (s : Server) (req : JsonRpcRequest)
    (_hm : req.method ∈ recognizedMethods) :
    (s.handle_request req).id = req.id ∧
    (((s.handle_request req).result.isSome ∧ (s.handle_request req).error = none) ∨
     ((s.handle_request req).result = none ∧ (s.handle_request req).error.isSome)) := by
  cases hd : s.dispatch req.method (req.params.getD (.obj [])) <;>
    simp [Server.handle_request, hd]

/-- Witness for C1 at the scenario-1 request against the empty
registry. -/
theorem handle_request_single_response_witness :
    (emptyServer.handle_request scenario1Request).id = scenario1Request.id ∧
    (((emptyServer.handle_request scenario1Request).result.isSome ∧
        (emptyServer.handle_request scenario1Request).error = none) ∨
     ((emptyServer.handle_request scenario1Request).result = none ∧
        (emptyServer.handle_request scenario1Request).error.isSome)) :=
  handle_request_single_response emptyServer scenario1Request
    (by simp [recognizedMethods, scenario1Request])

/-- C9: the dispatcher never inspects the request's protocol version
tag: the response's jsonrpc field is the constant "2.0" in both the
success and the error branch, and two requests identical except for
their jsonrpc field produce identical responses. -/
theorem handle_request_ignores_jsonrpc (s : Server) (req : JsonRpcRequest)
    (v₁ v₂ : String) :
    (s.handle_request req).jsonrpc = "2.0" ∧
    s.handle_request { req with jsonrpc := v₁ } =
      s.handle_request { req with jsonrpc := v₂ } := by
  constructor
  · cases hd : s.dispatch req.method (req.params.getD (.obj [])) <;>
      simp [Server.handle_request, hd]
  · rfl

/-- C10: an absent params field is equivalent to an empty-object params
for every method and id, and `callTool` and `getPrompt` with params
omitted yield the ordinary missing-required-parameter error. -/
theorem absent_params_equals_empty_object (s : Server) (jv : String)
    (id : Option String) (m : String) :
    s.handle_request ⟨jv, id, m, none⟩ =
      s.handle_request ⟨jv, id, m, some (.obj [])⟩ ∧
    (s.handle_request ⟨jv, id, "callTool", none⟩).error =
      some ⟨-32601, "Missing 'name' in params", none⟩ ∧
    (s.handle_request ⟨jv, id, "getPrompt", none⟩).error =
      some ⟨-32601, "Missing 'name' in params", none⟩ :=
  ⟨rfl, rfl, rfl⟩

/-- C3 counterexample: against a registry holding only `boomTool`, the
missing-name failure, the unknown-tool failure, the tool-execution
failure and the method-not-found failure all carry the same numeric
error code -32601, so the kinds are not distinguishable by code and none
differs from MethodNotFound's code. -/
theorem dispatch_error_codes_all_collapse :
    (boomServer.handle_request
        ⟨"2.0", some "a", "callTool", some (.obj [])⟩).error.map JsonRpcError.code =
      some (-32601) ∧
    (boomServer.handle_request
        ⟨"2.0", some "b", "callTool",
         some (.obj [("name", .str "ghost")])⟩).error.map JsonRpcError.code =
      some (-32601) ∧
    (boomServer.handle_request
        ⟨"2.0", some "c", "callTool",
         some (.obj [("name", .str "boom")])⟩).error.map JsonRpcError.code =
      some (-32601) ∧
    (boomServer.handle_request
        ⟨"2.0", some "d", "bogus", none⟩).error.map JsonRpcError.code =
      some (-32601) :=
  ⟨rfl, rfl, rfl, rfl⟩

/-- C3 amended: the three `callTool` failure conditions map to three
distinct error kinds distinguishable by the error message — params
lacking a string name gives "Missing 'name' in params", an unregistered
name gives "Tool (name) not found", and a failing registered tool
propagates the tool's own message — but all three carry the same numeric
code -32601, which is also MethodNotFound's code. -/
theorem callTool_failures_distinguished_by_message (s : Server)
    (req : JsonRpcRequest) (hm : req.method = "callTool") :
    (((req.params.getD (.obj [])).get "name").bind Json.as_str = none →
      (s.handle_request req).error =
        some ⟨-32601, "Missing 'name' in params", none⟩) ∧
    (∀ n, ((req.params.getD (.obj [])).get "name").bind Json.as_str = some n →
      lookupAL s.tools.tools n = none →
      (s.handle_request req).error =
        some ⟨-32601, "Tool " ++ n ++ " not found", none⟩) ∧
    (∀ n tool e, ((req.params.getD (.obj [])).get "name").bind Json.as_str = some n →
      lookupAL s.tools.tools n = some tool →
      tool.call ((req.params.getD (.obj [])).get "arguments") = .error e →
      (s.handle_request req).error = some ⟨-32601, e, none⟩) := by
  obtain ⟨jv, id, m, p⟩ := req
  subst hm
  refine ⟨?_, ?_, ?_⟩
  · intro h
    simp [Server.handle_request, Server.dispatch, Server.handle_call_tool, h]
  · intro n hn hlook
    simp [Server.handle_request, Server.dispatch, Server.handle_call_tool,
      Tools.call, hn, hlook]
  · intro n tool e hn hlook hcall
    simp [Server.handle_request, Server.dispatch, Server.handle_call_tool,
      Tools.call, hn, hlook, hcall]

/-- Witness for C3 amended: the three failure conditions realized
against the `boomTool` registry. -/
theorem callTool_failures_distinguished_by_message_witness :
    (boomServer.handle_request
        ⟨"2.0", some "a", "callTool", some (.obj [])⟩).error =
      some ⟨-32601, "Missing 'name' in params", none⟩ ∧
    (boomServer.handle_request
        ⟨"2.0", some "b", "callTool",
         some (.obj [("name", .str "ghost")])⟩).error =
      some ⟨-32601, "Tool ghost not found", none⟩ ∧
    (boomServer.handle_request
        ⟨"2.0", some "c", "callTool",
         some (.obj [("name", .str "boom")])⟩).error =
      some ⟨-32601, "boom failed", none⟩ := by
  refine ⟨?_, ?_, ?_⟩
  · exact (callTool_failures_distinguished_by_message boomServer
      ⟨"2.0", some "a", "callTool", some (.obj [])⟩ rfl).1 rfl
  · exact (callTool_failures_distinguished_by_message boomServer
      ⟨"2.0", some "b", "callTool",
       some (.obj [("name", .str "ghost")])⟩ rfl).2.1 "ghost" rfl rfl
  · exact (callTool_failures_distinguished_by_message boomServer
      ⟨"2.0", some "c", "callTool",
       some (.obj [("name", .str "boom")])⟩ rfl).2.2 "boom" boomTool
      "boom failed" rfl rfl rfl

/-- C4: a `callTool` request naming a registered tool whose call
succeeds gets a result that is exactly the tool's own content-block
sequence, unmodified and in order, wrapped under a single `content` key;
a name absent from the registry always yields the tool-not-found
failure. -/
theorem callTool_success_exact_content (s : Server) (req : JsonRpcRequest)
    (hm : req.method = "callTool") :
    (∀ n tool content,
      ((req.params.getD (.obj [])).get "name").bind Json.as_str = some n →
      lookupAL s.tools.tools n = some tool →
      tool.call ((req.params.getD (.obj [])).get "arguments") = .ok content →
      (s.handle_request req).result =
        some (.obj [("content", .arr (content.map encodeContent))]) ∧
      (s.handle_request req).error = none) ∧
    (∀ n, ((req.params.getD (.obj [])).get "name").bind Json.as_str = some n →
      lookupAL s.tools.tools n = none →
      (s.handle_request req).result = none ∧
      (s.handle_request req).error =
        some ⟨-32601, "Tool " ++ n ++ " not found", none⟩) := by
  obtain ⟨jv, id, m, p⟩ := req
  subst hm
  constructor
  · intro n tool content hn hlook hcall
    constructor <;>
      simp [Server.handle_request, Server.dispatch, Server.handle_call_tool,
        Tools.call, hn, hlook, hcall]
  · intro n hn hlook
    constructor <;>
      simp [Server.handle_request, Server.dispatch, Server.handle_call_tool,
        Tools.call, hn, hlook]

/-- Witness for C4: a registered echoing tool returns its single text
block under `content`, and an unknown name fails, against the same
registry. -/
theorem callTool_success_exact_content_witness :
    ((⟨Tools.new.add echoTool, "mcp-server", "0.1.0", defaultCapabilities⟩ :
        Server).handle_request
      ⟨"2.0", some "2", "callTool",
       some (.obj [("name", .str "echo")])⟩).result =
      some (.obj [("content", .arr [.obj [("type", .str "text"),
                                          ("text", .str "x")]])]) ∧
    ((⟨Tools.new.add echoTool, "mcp-server", "0.1.0", defaultCapabilities⟩ :
        Server).handle_request
      ⟨"2.0", some "9", "callTool",
       some (.obj [("name", .str "ghost")])⟩).error =
      some ⟨-32601, "Tool ghost not found", none⟩ := by
  constructor
  · exact ((callTool_success_exact_content
      ⟨Tools.new.add echoTool, "mcp-server", "0.1.0", defaultCapabilities⟩
      ⟨"2.0", some "2", "callTool", some (.obj [("name", .str "echo")])⟩
      rfl).1 "echo" echoTool [.text "x"] rfl rfl rfl).1
  · exact ((callTool_success_exact_content
      ⟨Tools.new.add echoTool, "mcp-server", "0.1.0", defaultCapabilities⟩
      ⟨"2.0", some "9", "callTool", some (.obj [("name", .str "ghost")])⟩
      rfl).2 "ghost" rfl rfl).2

end AnetMcp
